import Mathlib

/-!
Verification development for a products REST API (Express + express-validator +
Sequelize).  The embedding covers:

* the JSON value model and the JavaScript coercions express-validator and the
  custom `value > 0` check rely on (`src/router.ts`);
* the per-route validation chains exactly as declared in `src/router.ts`;
* the validation gate `handleInputErrors` (`src/middleware/index.ts`);
* the resource handlers (`src/handlers/product.ts`) over an explicit store.

The Sequelize model file (`src/models/Product.model`) is not part of the
sources; the storage operations (`findByPk`, `create`, `update`, `save`,
`destroy`) are modelled from the spec, as the doc comments note.
-/

set_option autoImplicit false

namespace ProductAPI

/-- A JSON value as it appears in `req.body` / `req.params`.  `undef` is a
missing field (JavaScript `undefined`).  JSON numbers are modelled as exact
rationals. -/
inductive JSValue where
  | undef
  | str (s : String)
  | num (q : Rat)
  | bool (b : Bool)
  deriving DecidableEq

/-- Decimal digits, most significant first, by fuelled long division (`n + 1`
units of fuel always suffice since `n / 10 < n` for positive `n`). -/
def natDigitsAux : Nat → Nat → List Char
  | 0, _ => []
  | fuel + 1, n =>
    if n < 10 then [Char.ofNat (48 + n)]
    else natDigitsAux fuel (n / 10) ++ [Char.ofNat (48 + n % 10)]

/-- Decimal digits of a natural number, most significant first; always
nonempty. -/
def natDigits (n : Nat) : List Char :=
  natDigitsAux (n + 1) n

/-- Fractional decimal digits of `num / den` (with `num < den`), produced by
long division, truncated at `fuel` digits.  JavaScript prints at most 17
significant digits; the embedding never relies on digits beyond the first. -/
def fracDigits : Nat → Nat → Nat → List Char
  | 0, _, _ => []
  | fuel + 1, num, den =>
    if num == 0 || den == 0 then []
    else Char.ofNat (48 + num * 10 / den % 10) :: fracDigits fuel (num * 10 % den) den

/-- Modelled JavaScript `String(n)` for a number: optional sign, integer part,
and (for non-integers) a dot followed by the fractional digits.  The
development only relies on the result being nonempty and on small integers
printing as their decimal digits. -/
def numToString (q : Rat) : String :=
  let sign := if q.num < 0 then ['-'] else []
  let n := q.num.natAbs
  let fp := fracDigits 20 (n % q.den) q.den
  String.mk (sign ++ natDigits (n / q.den) ++ (if fp.isEmpty then [] else '.' :: fp))

/-- The stringification express-validator applies to a field before running a
standard (non-custom) validator: `undefined` becomes the empty string,
booleans become their literal names, numbers their decimal form. -/
def jsToString : JSValue → String
  | .undef => ""
  | .str s => s
  | .num q => numToString q
  | .bool b => if b then ("true") else ("false")

/-- Leading sign of a numeric literal, if any. -/
def stripSign : List Char → List Char
  | '+' :: rest => rest
  | '-' :: rest => rest
  | l => l

/-- Nonempty and consisting only of decimal digits. -/
def digitsOnly (l : List Char) : Bool :=
  !l.isEmpty && l.all Char.isDigit

/-- validator.js `isNumeric` (default options), i.e. the regular expression
`[+-]?([0-9]*[.])?[0-9]+` anchored at both ends. -/
def isNumericChars (l : List Char) : Bool :=
  let m := stripSign l
  if m.contains '.' then
    (m.takeWhile (fun c => c ≠ '.')).all Char.isDigit &&
      digitsOnly ((m.dropWhile (fun c => c ≠ '.')).drop 1)
  else digitsOnly m

def isNumericStr (s : String) : Bool := isNumericChars s.data

/-- validator.js `isInt` (default options): `[+-]?[0-9]+` anchored. -/
def isIntStr (s : String) : Bool := digitsOnly (stripSign s.data)

/-- Both ends trimmed of whitespace, as JavaScript `ToNumber` does to a
string. -/
def trimChars (l : List Char) : List Char :=
  ((l.dropWhile Char.isWhitespace).reverse.dropWhile Char.isWhitespace).reverse

/-- Numeric value of a digit list. -/
def digitsVal (l : List Char) : Nat :=
  l.foldl (fun a c => 10 * a + (c.toNat - 48)) 0

/-- Unsigned decimal literal (`123`, `123.45`, `.45`, `12.`) as a rational. -/
def parseDecCore (l : List Char) : Option Rat :=
  if l.contains '.' then
    let ip := l.takeWhile (fun c => c ≠ '.')
    let fp := (l.dropWhile (fun c => c ≠ '.')).drop 1
    if ip.all Char.isDigit && fp.all Char.isDigit && (!ip.isEmpty || !fp.isEmpty) then
      some ((digitsVal ip : Rat) + (digitsVal fp : Rat) / (10 : Rat) ^ fp.length)
    else none
  else if digitsOnly l then some (digitsVal l) else none

/-- Modelled JavaScript `ToNumber` on a string: trim whitespace, the empty
string is `0`, otherwise an optionally signed decimal literal; anything else
(including the hexadecimal, exponent and `Infinity` forms, which no validation
chain in this project can ever accept) is NaN, encoded as `none`. -/
def strToNum (s : String) : Option Rat :=
  match trimChars s.data with
  | [] => some 0
  | '+' :: rest => parseDecCore rest
  | '-' :: rest => (parseDecCore rest).map (fun q => -q)
  | l => parseDecCore l

/-- JavaScript `ToNumber` on a raw value; `none` is NaN. -/
def jsToNumber : JSValue → Option Rat
  | .undef => none
  | .str s => strToNum s
  | .num q => some q
  | .bool b => some (if b then 1 else 0)

/-- The custom check `value => value > 0` from `src/router.ts`: JavaScript
relational comparison against the number `0`, which coerces `value` with
`ToNumber`; any NaN comparison is false. -/
def jsGtZero (v : JSValue) : Bool :=
  match jsToNumber v with
  | some q => decide (0 < q)
  | none => false

/-- validator.js `notEmpty` (default options: whitespace NOT ignored) on the
stringified field. -/
def notEmptyVal (v : JSValue) : Bool :=
  jsToString v != ""

/-- validator.js `isNumeric` on the stringified field. -/
def isNumericVal (v : JSValue) : Bool :=
  isNumericStr (jsToString v)

/-- validator.js `isBoolean` (default strict list) on the stringified field. -/
def isBooleanVal (v : JSValue) : Bool :=
  let s := jsToString v
  s == "true" || s == "false" || s == "0" || s == "1"

/-! ## Data model and store

The Product entity and the storage collaborator.  The Sequelize model file is
not among the sources, so the store is modelled from the spec: an opaque
relational table with `insert` / `findByKey` / `update` / `delete` by unique
key. -/

/-- Modelled from the spec: the Product row (§3).  `id` is generated by the
storage layer on creation; `price` is numeric; `availability` boolean. -/
structure Product where
  id : Int
  name : String
  price : Rat
  availability : Bool
  deriving DecidableEq

/-- Modelled from the spec: the single relational table, a list of rows. -/
abbrev Store := List Product

/-- Modelled from the spec: `findByKey(id) -> Product | absent` (§6), the
embedding of Sequelize `Product.findByPk`. -/
def findByPk (s : Store) (id : Int) : Option Product :=
  s.find? (fun p => p.id == id)

/-- Modelled from the spec: the storage layer generates a fresh `id` on
creation and never reuses one (§3); one more than the largest id in the
table. -/
def freshId (s : Store) : Int :=
  s.foldl (fun m p => max m p.id) 0 + 1

/-- Modelled from the spec: the storage layer coerces the `name` field to its
string form, as JavaScript `String(value)`. -/
def coerceName (v : JSValue) : String := jsToString v

/-- Modelled from the spec: the storage layer coerces the `price` field to a
number, as JavaScript `ToNumber`; a NaN stores as 0 (no validated body ever
reaches this case). -/
def coercePrice (v : JSValue) : Rat :=
  (jsToNumber v).getD 0

/-- Modelled from the spec: the storage layer coerces the `availability`
field to a boolean. -/
def coerceAvailability (v : JSValue) : Bool :=
  match v with
  | .bool b => b
  | .str s => s == "true" || s == "1"
  | .num q => decide (q ≠ 0)
  | .undef => false

/-- Modelled from the spec: replacing a row in the table by key (`update` then
`save` on a fetched row writes it back under its key). -/
def setRow (s : Store) (p : Product) : Store :=
  s.map (fun q => if q.id == p.id then p else q)

/-- The request body of the products API: the three fields the validation
chains and handlers read.  A missing field is `undef`. -/
structure ReqBody where
  name : JSValue
  price : JSValue
  availability : JSValue
  deriving DecidableEq

/-- Modelled from the spec: `insert(fields) -> Product` (§6), the embedding of
Sequelize `Product.create(req.body)`: a fresh id, the coerced fields, and
`availability` defaulting to `true` on creation (§3). -/
def insertRow (s : Store) (b : ReqBody) : Product × Store :=
  let p : Product := ⟨freshId s, coerceName b.name, coercePrice b.price, true⟩
  (p, s ++ [p])

/-- Modelled from the spec: `update(Product, fields)` (§6) — replace (all
fields) writes the body's `name`, `price` and `availability` over the fetched
row; the key is immutable. -/
def updateFields (p : Product) (b : ReqBody) : Product :=
  { p with
    name := coerceName b.name
    price := coercePrice b.price
    availability := coerceAvailability b.availability }

/-! ## Responses and handlers (`src/handlers/product.ts`) -/

/-- The JSON bodies the handlers and the gate produce. -/
inductive RespBody where
  | data (p : Product)
  | dataListing (ps : List Product)
  | dataMsg (s : String)
  | error (msg : String)
  | errores (msgs : List String)
  deriving DecidableEq

/-- An HTTP response: status code and JSON body. -/
structure Response where
  status : Nat
  body : RespBody
  deriving DecidableEq

/-- Insert keeping prices in descending order (the `order: [['price','DESC']]`
clause of `findAll`). -/
def insertByPriceDesc (p : Product) : List Product → List Product
  | [] => [p]
  | q :: t => if q.price ≤ p.price then p :: q :: t else q :: insertByPriceDesc p t

/-- The rows sorted by price, descending. -/
def sortByPriceDesc : List Product → List Product
  | [] => []
  | p :: t => insertByPriceDesc p (sortByPriceDesc t)

/-- `getProducts`: list all rows ordered by price descending, respond 200. -/
def getProducts (s : Store) : Response × Store :=
  (⟨200, .dataListing (sortByPriceDesc s)⟩, s)

/-- `getProductById`: look the row up by key; 404 with the fixed error body if
absent, else 200 with the row. -/
def getProductById (s : Store) (id : Int) : Response × Store :=
  match findByPk s id with
  | none => (⟨404, .error ("Producto no encontrado")⟩, s)
  | some p => (⟨200, .data p⟩, s)

/-- `createProduct`: insert the body as a new row, respond 201 with the row. -/
def createProduct (s : Store) (b : ReqBody) : Response × Store :=
  let r := insertRow s b
  (⟨201, .data r.1⟩, r.2)

/-- `updateProduct`: look up by key; 404 if absent; else overwrite the row's
fields from the body, save, respond 200 with the updated row. -/
def updateProduct (s : Store) (id : Int) (b : ReqBody) : Response × Store :=
  match findByPk s id with
  | none => (⟨404, .error ("Producto no encontrado")⟩, s)
  | some p =>
    let p' := updateFields p b
    (⟨200, .data p'⟩, setRow s p')

/-- `updateAvailability`: look up by key; 404 if absent; else flip the stored
`availability` boolean, save, respond 200 with the updated row. -/
def updateAvailability (s : Store) (id : Int) : Response × Store :=
  match findByPk s id with
  | none => (⟨404, .error ("Producto no encontrado")⟩, s)
  | some p =>
    let p' := { p with availability := !p.availability }
    (⟨200, .data p'⟩, setRow s p')

/-- `deleteProduct`: look up by key; 404 if absent; else hard-delete the row
(the key is unique in the table, so deletion removes every row with that key)
and respond 200 with the confirmation string. -/
def deleteProduct (s : Store) (id : Int) : Response × Store :=
  match findByPk s id with
  | none => (⟨404, .error ("Producto no encontrado")⟩, s)
  | some p =>
    (⟨200, .dataMsg ("Producto eliminado")⟩, s.filter (fun q => q.id != p.id))

/-! ## Validation gate (`src/middleware/index.ts`) -/

/-- `handleInputErrors`: if the collected violation list is nonempty, respond
400 with `{ errores: [...] }` and stop; otherwise call the next element of the
chain. -/
def handleInputErrors (errores : List String)
    (next : Store → Response × Store) (s : Store) : Response × Store :=
  if !errores.isEmpty then (⟨400, .errores errores⟩, s)
  else next s

/-! ## Validation chains (`src/router.ts`)

Each rule contributes its violation message exactly when its check fails; a
chain's violations are concatenated in declaration order, and a request's
violations concatenate the chains in declaration order.  express-validator has
no `bail()` here, so no failing check suppresses a later one. -/

/-- One rule: its message when the check fails, nothing when it passes. -/
def check (ok : Bool) (msg : String) : List String :=
  if ok then [] else [msg]

/-- `param('id').isInt().withMessage('ID no valido')`. -/
def idChecks (idStr : String) : List String :=
  check (isIntStr idStr) "ID no valido"

/-- `body('name').notEmpty().withMessage(...)` (lines 132 and 188). -/
def nameChecks (v : JSValue) : List String :=
  check (notEmptyVal v) "El nombre del producto no puede ir vacio"

/-- The POST price chain, `src/router.ts` lines 133–136:
`isNumeric`, `notEmpty`, `custom(value => value > 0)`. -/
def pricePostChecks (v : JSValue) : List String :=
  check (isNumericVal v) "Valor no valido" ++
    check (notEmptyVal v) "El precio del producto no puede ir vacio" ++
      check (jsGtZero v) "Precio no valido"

/-- The PUT price chain, `src/router.ts` lines 189–192:
`isNumeric`, `notEmpty`, `custom(value => value > 0)`. -/
def pricePutChecks (v : JSValue) : List String :=
  check (isNumericVal v) "Valor no valido" ++
    check (notEmptyVal v) "El precio del producto no puede ir vacio" ++
      check (jsGtZero v) "Precio no valido"

/-- `body('availability').isBoolean().withMessage(...)` (line 193). -/
def availabilityChecks (v : JSValue) : List String :=
  check (isBooleanVal v) "Debes de actualizar el estado del producto"

/-- Violations of the POST `/` chain: name, then the three price rules. -/
def postValidations (b : ReqBody) : List String :=
  nameChecks b.name ++ pricePostChecks b.price

/-- Violations of the PUT `/:id` chain: id, name, the three price rules,
availability. -/
def putValidations (idStr : String) (b : ReqBody) : List String :=
  idChecks idStr ++ nameChecks b.name ++ pricePutChecks b.price ++
    availabilityChecks b.availability

/-- The path id, parsed the way the storage key lookup coerces it (the gate
only lets optionally signed digit strings through). -/
def parseIntStr (s : String) : Int :=
  match s.data with
  | '-' :: rest => -(digitsVal rest : Int)
  | '+' :: rest => (digitsVal rest : Int)
  | l => (digitsVal l : Int)

/-! ## Routes: rule set → gate → handler -/

/-- `router.get('/:id', param('id').isInt()..., handleInputErrors, getProductById)`. -/
def getByIdRoute (s : Store) (idStr : String) : Response × Store :=
  handleInputErrors (idChecks idStr) (fun st => getProductById st (parseIntStr idStr)) s

/-- `router.post('/', ...name..., ...price..., handleInputErrors, createProduct)`. -/
def postRoute (s : Store) (b : ReqBody) : Response × Store :=
  handleInputErrors (postValidations b) (fun st => createProduct st b) s

/-- `router.put('/:id', ...id/name/price/availability..., handleInputErrors, updateProduct)`. -/
def putRoute (s : Store) (idStr : String) (b : ReqBody) : Response × Store :=
  handleInputErrors (putValidations idStr b)
    (fun st => updateProduct st (parseIntStr idStr) b) s

/-- `router.patch('/:id', param('id').isInt()..., handleInputErrors, updateAvailability)`. -/
def patchRoute (s : Store) (idStr : String) : Response × Store :=
  handleInputErrors (idChecks idStr) (fun st => updateAvailability st (parseIntStr idStr)) s

/-- `router.delete('/:id', param('id').isInt()..., handleInputErrors, deleteProduct)`. -/
def deleteRoute (s : Store) (idStr : String) : Response × Store :=
  handleInputErrors (idChecks idStr) (fun st => deleteProduct st (parseIntStr idStr)) s

/-! ## Helper lemmas -/

/-- A rule contributes no violation exactly when its check passes. -/
theorem check_eq_nil_iff {ok : Bool} {msg : String} : check ok msg = [] ↔ ok = true := by
  cases ok <;> simp [check]

/-- The invariant of §3 as amended: price positive, name nonempty. -/
def ProductOK (p : Product) : Prop := 0 < p.price ∧ p.name ≠ ""

instance (p : Product) : Decidable (ProductOK p) :=
  inferInstanceAs (Decidable (_ ∧ _))

/-- A field passing `notEmpty` coerces to a nonempty stored name. -/
theorem coerceName_ne_empty {v : JSValue} (h : notEmptyVal v = true) : coerceName v ≠ "" := by
  simpa [notEmptyVal, coerceName, bne_iff_ne] using h

/-- A field passing the custom `value > 0` check coerces to a positive stored
price. -/
theorem coercePrice_pos {v : JSValue} (h : jsGtZero v = true) : 0 < coercePrice v := by
  unfold jsGtZero at h
  unfold coercePrice
  cases hn : jsToNumber v with
  | none => rw [hn] at h; cases h
  | some q => rw [hn] at h; simpa using h

/-- An empty POST violation list means the name and the custom price check
passed. -/
theorem postValidations_nil {b : ReqBody} (h : postValidations b = []) :
    notEmptyVal b.name = true ∧ jsGtZero b.price = true := by
  simp only [postValidations, nameChecks, pricePostChecks, List.append_eq_nil,
    check_eq_nil_iff] at h
  exact ⟨h.1, h.2.2⟩

/-- An empty PUT violation list means the name and the custom price check
passed. -/
theorem putValidations_nil {idStr : String} {b : ReqBody}
    (h : putValidations idStr b = []) :
    notEmptyVal b.name = true ∧ jsGtZero b.price = true := by
  simp only [putValidations, idChecks, nameChecks, pricePutChecks, availabilityChecks,
    List.append_eq_nil, check_eq_nil_iff] at h
  exact ⟨h.1.1.2, h.1.2.2⟩

/-- Membership after a keyed row replacement: the new row or an old one. -/
theorem mem_setRow {s : Store} {p q : Product} (hq : q ∈ setRow s p) :
    q = p ∨ q ∈ s := by
  unfold setRow at hq
  obtain ⟨r, hr, hrq⟩ := List.mem_map.mp hq
  by_cases hc : (r.id == p.id) = true
  · left; rw [← hrq]; simp [hc]
  · right
    rw [← hrq]
    simp only [hc, if_neg]
    simpa [hc] using hr

/-- A nonempty violation list leaves the store untouched at the gate. -/
theorem gate_store_of_ne {errores : List String} (h : errores ≠ [])
    (next : Store → Response × Store) (s : Store) :
    (handleInputErrors errores next s).2 = s := by
  cases errores with
  | nil => exact absurd rfl h
  | cons e t => rfl

/-! ## Claims -/

/-- Claim C1: for every request, a non-empty violation set makes the gate
respond 400 with body `{ errores: [...] }` listing exactly the violations,
independently of the handler (which is never invoked, so the result does not
depend on `next` and the store is untouched); an empty set passes control to
the handler unchanged. -/
theorem c1_gate_short_circuit (errores : List String) (s : Store) :
    (errores ≠ [] → ∀ next : Store → Response × Store,
      handleInputErrors errores next s = (⟨400, .errores errores⟩, s)) ∧
    (errores = [] → ∀ next : Store → Response × Store,
      handleInputErrors errores next s = next s) := by
  constructor
  · intro h next
    cases errores with
    | nil => exact absurd rfl h
    | cons a t => rfl
  · intro h next
    subst h
    rfl

theorem c1_gate_short_circuit_witness :
    handleInputErrors ["ID no valido"] (fun st => (⟨200, .dataMsg ("x")⟩, st)) [] =
      (⟨400, .errores ["ID no valido"]⟩, []) :=
  (c1_gate_short_circuit ["ID no valido"] []).1 (by decide)
    (fun st => (⟨200, .dataMsg ("x")⟩, st))

/-- Claim C2: on a validated id with no matching row, each of get-by-id,
replace, toggle-availability and delete responds 404 with exactly
`{ error: "Producto no encontrado" }` and leaves the store unchanged (no
mutating storage call happens). -/
theorem c2_not_found_uniform (s : Store) (id : Int) (b : ReqBody)
    (h : findByPk s id = none) :
    getProductById s id = (⟨404, .error ("Producto no encontrado")⟩, s) ∧
    updateProduct s id b = (⟨404, .error ("Producto no encontrado")⟩, s) ∧
    updateAvailability s id = (⟨404, .error ("Producto no encontrado")⟩, s) ∧
    deleteProduct s id = (⟨404, .error ("Producto no encontrado")⟩, s) := by
  unfold getProductById updateProduct updateAvailability deleteProduct
  simp only [h]
  exact ⟨trivial, trivial, trivial, trivial⟩

theorem c2_not_found_uniform_witness :
    getProductById [] 1 = (⟨404, .error ("Producto no encontrado")⟩, []) ∧
    updateProduct [] 1 ⟨.undef, .undef, .undef⟩ =
      (⟨404, .error ("Producto no encontrado")⟩, []) ∧
    updateAvailability [] 1 = (⟨404, .error ("Producto no encontrado")⟩, []) ∧
    deleteProduct [] 1 = (⟨404, .error ("Producto no encontrado")⟩, []) :=
  c2_not_found_uniform [] 1 ⟨.undef, .undef, .undef⟩ (by decide)

/-- Claim C3: a create request whose body has neither `name` nor `price`
(whatever `availability` holds) yields 400 with exactly the four violations in
declaration order — empty name, non-numeric price, empty price, price not
greater than 0 — and the handler never runs, so the store is unchanged. -/
theorem c3_create_all_four_violations (a : JSValue) (s : Store) :
    postRoute s ⟨.undef, .undef, a⟩ =
      (⟨400, .errores ["El nombre del producto no puede ir vacio", "Valor no valido",
        "El precio del producto no puede ir vacio", "Precio no valido"]⟩, s) := rfl

/-- Claim C4: a create request with a name passing `notEmpty` and price the
string `"hola"` yields 400 with exactly the two violations of the numeric
check and the custom `> 0` check — the failing numeric check does not
suppress the custom check. -/
theorem c4_create_price_hola (v : JSValue) (h : notEmptyVal v = true)
    (a : JSValue) (s : Store) :
    postRoute s ⟨v, .str ("hola"), a⟩ =
      (⟨400, .errores ["Valor no valido", "Precio no valido"]⟩, s) := by
  have hn : nameChecks v = [] := by simp [nameChecks, check, h]
  simp only [postRoute, postValidations, hn]
  rfl

theorem c4_create_price_hola_witness :
    postRoute [] ⟨.str ("Mouse"), .str ("hola"), .undef⟩ =
      (⟨400, .errores ["Valor no valido", "Precio no valido"]⟩, []) :=
  c4_create_price_hola (.str ("Mouse")) (by decide) .undef []

/-- Claim C5: a replace request with a path id passing `isInt` and an empty
body yields 400 with exactly five violations in declaration order: name,
the three price rules, availability. -/
theorem c5_put_empty_body (idStr : String) (h : isIntStr idStr = true) (s : Store) :
    putRoute s idStr ⟨.undef, .undef, .undef⟩ =
      (⟨400, .errores ["El nombre del producto no puede ir vacio", "Valor no valido",
        "El precio del producto no puede ir vacio", "Precio no valido",
        "Debes de actualizar el estado del producto"]⟩, s) := by
  have hid : idChecks idStr = [] := by simp [idChecks, check, h]
  simp only [putRoute, putValidations, hid]
  rfl

theorem c5_put_empty_body_witness :
    putRoute [] "1" ⟨.undef, .undef, .undef⟩ =
      (⟨400, .errores ["El nombre del producto no puede ir vacio", "Valor no valido",
        "El precio del producto no puede ir vacio", "Precio no valido",
        "Debes de actualizar el estado del producto"]⟩, []) :=
  c5_put_empty_body ("1") (by decide) []

/-- Claim C6: toggling an existing id responds 200 with the stored row, whose
`availability` is the negation of the previously stored value and whose other
fields (`id`, `name`, `price`) are unchanged; the store holds the same row
under the same key. -/
theorem c6_toggle_negates (s : Store) (id : Int) (p : Product)
    (h : findByPk s id = some p) :
    updateAvailability s id =
      (⟨200, .data { p with availability := !p.availability }⟩,
        setRow s { p with availability := !p.availability }) := by
  unfold updateAvailability
  simp only [h]

theorem c6_toggle_negates_witness :
    updateAvailability [⟨1, "Mouse", 50, true⟩] 1 =
      (⟨200, .data ⟨1, "Mouse", 50, false⟩⟩, [⟨1, "Mouse", 50, false⟩]) := by
  have h := c6_toggle_negates [⟨1, "Mouse", 50, true⟩] 1 ⟨1, "Mouse", 50, true⟩ (by decide)
  simpa using h

/-- Claim C7 fails as stated: the create chain checks `notEmpty` without
trimming, so the whitespace-only name `" "` passes validation; the request is
answered 201 and the store then holds a product whose name is nonempty but
trims to nothing — refuting that every reachable product has a name that is
not whitespace-only. -/
theorem c7_invariant_counterexample :
    (postRoute [] ⟨.str (" "), .num 5, .undef⟩).1.status = 201 ∧
    (postRoute [] ⟨.str (" "), .num 5, .undef⟩).2 = [⟨1, " ", 5, true⟩] ∧
    (" " ≠ "" ∧ trimChars (" ").data = []) := by decide

/-- Claim C7 as amended: every product reachable through the API operations
satisfies `price > 0` and `name ≠ ""` (the name may still be whitespace-only):
if every row of the store satisfies the invariant, then after any create,
replace, toggle or delete request every row still does. -/
theorem c7_amended_invariant (s : Store) (hs : ∀ p ∈ s, ProductOK p)
    (b : ReqBody) (idStr : String) :
    (∀ p ∈ (postRoute s b).2, ProductOK p) ∧
    (∀ p ∈ (putRoute s idStr b).2, ProductOK p) ∧
    (∀ p ∈ (patchRoute s idStr).2, ProductOK p) ∧
    (∀ p ∈ (deleteRoute s idStr).2, ProductOK p) := by
  refine ⟨?_, ?_, ?_, ?_⟩
  · intro p hp
    unfold postRoute at hp
    by_cases hv : postValidations b = []
    · obtain ⟨hname, hprice⟩ := postValidations_nil hv
      rw [hv] at hp
      rcases List.mem_append.mp
          (show p ∈ s ++ [⟨freshId s, coerceName b.name, coercePrice b.price, true⟩] from hp) with
        hold | hnew
      · exact hs p hold
      · have hpeq : p = ⟨freshId s, coerceName b.name, coercePrice b.price, true⟩ := by
          simpa using hnew
        rw [hpeq]
        exact ⟨coercePrice_pos hprice, coerceName_ne_empty hname⟩
    · rw [gate_store_of_ne hv] at hp
      exact hs p hp
  · intro p hp
    unfold putRoute at hp
    by_cases hv : putValidations idStr b = []
    · obtain ⟨hname, hprice⟩ := putValidations_nil hv
      rw [hv] at hp
      have hp' : p ∈ (updateProduct s (parseIntStr idStr) b).2 := hp
      unfold updateProduct at hp'
      cases hf : findByPk s (parseIntStr idStr) with
      | none =>
        rw [hf] at hp'
        exact hs p hp'
      | some p0 =>
        rw [hf] at hp'
        rcases mem_setRow (show p ∈ setRow s (updateFields p0 b) from hp') with hpeq | hold
        · rw [hpeq]
          exact ⟨coercePrice_pos hprice, coerceName_ne_empty hname⟩
        · exact hs p hold
    · rw [gate_store_of_ne hv] at hp
      exact hs p hp
  · intro p hp
    unfold patchRoute at hp
    by_cases hv : idChecks idStr = []
    · rw [hv] at hp
      have hp' : p ∈ (updateAvailability s (parseIntStr idStr)).2 := hp
      unfold updateAvailability at hp'
      cases hf : findByPk s (parseIntStr idStr) with
      | none =>
        rw [hf] at hp'
        exact hs p hp'
      | some p0 =>
        have hp0 : p0 ∈ s := by
          have hf' : List.find? (fun q => q.id == parseIntStr idStr) s = some p0 := hf
          exact List.mem_of_find?_eq_some hf'
        rw [hf] at hp'
        rcases mem_setRow
            (show p ∈ setRow s { p0 with availability := !p0.availability } from hp') with
          hpeq | hold
        · rw [hpeq]
          exact ⟨(hs p0 hp0).1, (hs p0 hp0).2⟩
        · exact hs p hold
    · rw [gate_store_of_ne hv] at hp
      exact hs p hp
  · intro p hp
    unfold deleteRoute at hp
    by_cases hv : idChecks idStr = []
    · rw [hv] at hp
      have hp' : p ∈ (deleteProduct s (parseIntStr idStr)).2 := hp
      unfold deleteProduct at hp'
      cases hf : findByPk s (parseIntStr idStr) with
      | none =>
        rw [hf] at hp'
        exact hs p hp'
      | some p0 =>
        rw [hf] at hp'
        exact hs p
          (List.mem_of_mem_filter (show p ∈ List.filter (fun q => q.id != p0.id) s from hp'))
    · rw [gate_store_of_ne hv] at hp
      exact hs p hp

theorem c7_amended_invariant_witness :
    (∀ p ∈ (postRoute [] ⟨.str ("Mouse"), .num 50, .undef⟩).2, ProductOK p) ∧
    (∀ p ∈ (putRoute [] "1" ⟨.str ("Mouse"), .num 50, .undef⟩).2, ProductOK p) ∧
    (∀ p ∈ (patchRoute [] "1").2, ProductOK p) ∧
    (∀ p ∈ (deleteRoute [] "1").2, ProductOK p) :=
  c7_amended_invariant [] (by simp) ⟨.str ("Mouse"), .num 50, .undef⟩ "1"

/-- Claim C8: a create request that passes validation inserts exactly the row
built from the body's (coerced) name and price with `availability` defaulting
to `true` and a storage-generated fresh id, and responds 201 with
`{ data: Product }` carrying that row. -/
theorem c8_create_valid (s : Store) (b : ReqBody) (h : postValidations b = []) :
    postRoute s b =
      (⟨201, .data ⟨freshId s, coerceName b.name, coercePrice b.price, true⟩⟩,
        s ++ [⟨freshId s, coerceName b.name, coercePrice b.price, true⟩]) := by
  unfold postRoute
  rw [h]
  rfl

theorem c8_create_valid_witness :
    postRoute [] ⟨.str ("Mouse"), .num 50, .undef⟩ =
      (⟨201, .data ⟨1, "Mouse", 50, true⟩⟩, [⟨1, "Mouse", 50, true⟩]) := by
  have h := c8_create_valid [] ⟨.str ("Mouse"), .num 50, .undef⟩ (by decide)
  simpa using h

/-- Claim C9: once a delete on an id has succeeded with 200 and data
`"Producto eliminado"`, the row is gone (hard delete), so repeating the delete
on the same id responds 404 with `{ error: "Producto no encontrado" }` and
changes nothing. -/
theorem c9_delete_then_delete_404 (s : Store) (id : Int)
    (h : (deleteProduct s id).1 = ⟨200, .dataMsg ("Producto eliminado")⟩) :
    deleteProduct (deleteProduct s id).2 id =
      (⟨404, .error ("Producto no encontrado")⟩, (deleteProduct s id).2) := by
  cases hf : findByPk s id with
  | none =>
    exfalso
    unfold deleteProduct at h
    rw [hf] at h
    have h2 : (404 : Nat) = 200 := congrArg Response.status h
    exact absurd h2 (by decide)
  | some p =>
    have hpid : p.id = id := by
      have h1 := List.find?_some (show List.find? (fun q => q.id == id) s = some p from hf)
      simpa using h1
    have hstore : (deleteProduct s id).2 = s.filter (fun q => q.id != p.id) := by
      unfold deleteProduct
      rw [hf]
    have hnone : findByPk (s.filter (fun q => q.id != p.id)) id = none := by
      unfold findByPk
      rw [List.find?_eq_none]
      intro q hq
      have hq2 : (q.id != p.id) = true := (List.mem_filter.mp hq).2
      have hqne : q.id ≠ p.id := by simpa using hq2
      simp only [beq_iff_eq]
      rw [← hpid]
      exact hqne
    rw [hstore]
    unfold deleteProduct
    rw [hnone]

theorem c9_delete_then_delete_404_witness :
    deleteProduct (deleteProduct [⟨1, "Mouse", 50, true⟩] 1).2 1 =
      (⟨404, .error ("Producto no encontrado")⟩,
        (deleteProduct [⟨1, "Mouse", 50, true⟩] 1).2) :=
  c9_delete_then_delete_404 [⟨1, "Mouse", 50, true⟩] 1 (by decide)

/-- Claim C10: the PUT price chain and the POST price chain are the same three
checks with the same messages in the same order, so every body field produces
the same price-violation sequence on both routes. -/
theorem c10_price_chain_put_eq_post (v : JSValue) :
    pricePutChecks v = pricePostChecks v := rfl

end ProductAPI
